import Mathlib

/-!
Verification development for the liquidity-sentinel monitoring service.

This file gives a shallow embedding, in Lean, of the risk-classification,
alert-lifecycle, locking, indexing and message-chunking logic of the
repository, and proves properties of the embedded definitions.

Conventions used throughout the embedding:
* JavaScript numbers are modelled as `Option ℚ`: `some q` is a finite value
  and `none` stands for a non-finite value (`NaN`, `±Infinity`) or `null`,
  so `Number.isFinite x` becomes `x.isSome`.
* JavaScript strings are modelled as `String` (or `List Char` where the
  code manipulates them character by character).
* Database writes and Discord sends are modelled as explicit effect records
  returned by the embedded functions.
* The abstract `hash` / `parseNumber` / `alive` / `getCode` parameters stand
  for `crypto.createHash("sha256")`, `Number(...)` on strings, the
  `process.kill(pid, 0)` liveness probe, and `provider.getCode`.
-/

namespace LiquiditySentinel

/-! ## JSON values and stable stringification (monitoring/alertEngine.js)

`JsonVal` models the JSON-representable JavaScript values that signature
payloads are built from.  Numbers are restricted to integers: every numeric
field fed into a signature payload by the alert handlers is an integer
bucket (`Math.round`), a boolean, a string or `null`. -/

inductive JsonVal : Type where
  | null : JsonVal
  | bool (b : Bool) : JsonVal
  | num (n : Int) : JsonVal
  | str (s : String) : JsonVal
  | arr (elems : List JsonVal) : JsonVal
  | obj (fields : List (String × JsonVal)) : JsonVal

/-- Join a list of strings with commas, as in `Array.prototype.join(",")`
used by `JSON.stringify` for array and object members. -/
def joinComma : List String → String
  | [] => ""
  | [s] => s
  | s :: rest => s ++ "," ++ joinComma rest

/-- Escape of a single character inside a JSON string literal
(`JSON.stringify` escaping; the control characters our payloads can
contain). -/
def escapeJsonChar (c : Char) : String :=
  if c = '"' then ("\\\"")
  else if c = '\\' then ("\\\\")
  else if c = '\n' then ("\\n")
  else if c = '\r' then ("\\r")
  else if c = '\t' then ("\\t")
  else String.singleton c

def escapeChars : List Char → String
  | [] => ""
  | c :: cs => escapeJsonChar c ++ escapeChars cs

/-- Model of `JSON.stringify` of a string value: quoted and escaped. -/
def quoteJsonString (s : String) : String :=
  "\"" ++ escapeChars s.data ++ "\""

mutual

/-- Model of `JSON.stringify(v)`: plain JSON serialization; object fields are emitted
in insertion order. -/
def plainStringify : JsonVal → String
  | .null => "null"
  | .bool true => "true"
  | .bool false => "false"
  | .num n => toString n
  | .str s => quoteJsonString s
  | .arr xs => "[" ++ joinComma (plainList xs) ++ "]"
  | .obj fs => "\x7b" ++ joinComma (plainFields fs) ++ "\x7d"

def plainList : List JsonVal → List String
  | [] => []
  | x :: xs => plainStringify x :: plainList xs

def plainFields : List (String × JsonVal) → List String
  | [] => []
  | (k, v) :: fs => (quoteJsonString k ++ ":" ++ plainStringify v) :: plainFields fs

end

/-- The comparison used by JavaScript default `Array.prototype.sort()` on
strings: lexicographic on code units. -/
def charListLe : List Char → List Char → Bool
  | [], _ => true
  | _ :: _, [] => false
  | a :: as, b :: bs =>
    if a < b then true
    else if b < a then false
    else charListLe as bs

def jsKeyLe (a b : String) : Prop := charListLe a.data b.data = true

instance : DecidableRel jsKeyLe := fun a b =>
  inferInstanceAs (Decidable (charListLe a.data b.data = true))

/-- Model of `Object.keys(obj).sort()`: the key list sorted by the default string
comparison (modelled by a stable insertion sort). -/
def sortKeys (ks : List String) : List String :=
  List.insertionSort jsKeyLe ks

/-- Model of the `obj[k]` property access on the field list of an object. -/
def fieldLookup (fs : List (String × JsonVal)) (k : String) : JsonVal :=
  (fs.lookup k).getD .null

mutual

/-- Embedding of `stableStringify` from monitoring/alertEngine.js:
primitives go through `JSON.stringify`; arrays are mapped through
`stableStringify` element-wise and the resulting array OF STRINGS is
serialized; for objects the TOP-LEVEL keys are sorted, the object is
rebuilt in sorted key order, and the rebuilt object is handed to plain
`JSON.stringify` (so nested objects keep their insertion order). -/
def stableStringify : JsonVal → String
  | .null => plainStringify .null
  | .bool b => plainStringify (.bool b)
  | .num n => plainStringify (.num n)
  | .str s => plainStringify (.str s)
  | .arr xs => "[" ++ joinComma (stableArr xs) ++ "]"
  | .obj fs =>
      plainStringify (.obj ((sortKeys (fs.map Prod.fst)).map fun k => (k, fieldLookup fs k)))

def stableArr : List JsonVal → List String
  | [] => []
  | x :: xs => quoteJsonString (stableStringify x) :: stableArr xs

end

/-- Embedding of `makeSignature`: the content hash of the stable serialization.  The
`hash` parameter abstracts `crypto.createHash("sha256") ... digest("hex")`. -/
def makeSignature (hash : String → String) (payload : JsonVal) : String :=
  hash (stableStringify payload)

mutual

/-- Structural equality of JSON values up to re-ordering of object fields
(at every nesting level): the notion of two payloads being "equal as
key-value structures but built with different field insertion orders". -/
inductive JsonEquiv : JsonVal → JsonVal → Prop where
  | null : JsonEquiv .null .null
  | bool (b : Bool) : JsonEquiv (.bool b) (.bool b)
  | num (n : Int) : JsonEquiv (.num n) (.num n)
  | str (s : String) : JsonEquiv (.str s) (.str s)
  | arr {xs ys : List JsonVal} :
      JsonListEquiv xs ys → JsonEquiv (.arr xs) (.arr ys)
  | obj {xs ys zs : List (String × JsonVal)} :
      xs.Perm ys → JsonFieldsEquiv ys zs → JsonEquiv (.obj xs) (.obj zs)

/-- Pointwise `JsonEquiv` on element lists. -/
inductive JsonListEquiv : List JsonVal → List JsonVal → Prop where
  | nil : JsonListEquiv [] []
  | cons {x y : JsonVal} {xs ys : List JsonVal} :
      JsonEquiv x y → JsonListEquiv xs ys → JsonListEquiv (x :: xs) (y :: ys)

/-- Pointwise key-equality and value-`JsonEquiv` on field lists. -/
inductive JsonFieldsEquiv :
    List (String × JsonVal) → List (String × JsonVal) → Prop where
  | nil : JsonFieldsEquiv [] []
  | cons (k : String) {v w : JsonVal} {fs gs : List (String × JsonVal)} :
      JsonEquiv v w → JsonFieldsEquiv fs gs →
      JsonFieldsEquiv ((k, v) :: fs) ((k, w) :: gs)

end

/-! ## Alert lifecycle engine (monitoring/alertEngine.js, processAlert) -/

/-- One `alert_state` row (keyed by the identity tuple, which is implicit
here: `processAlert` operates on a single identity).  `is_active` is the
stored integer column. -/
structure AlertStateRow where
  isActive : Nat
  signature : Option String
  stateJson : Option String
deriving DecidableEq

/-- One appended `alert_log` row. -/
structure AlertLogRow where
  alertType : String
  phase : String
  message : String
  signature : Option String
deriving DecidableEq

/-- The effects of one `processAlert` call: the upserted `alert_state` row,
the appended `alert_log` rows, and the phases for which `sendDmToUser`
was invoked. -/
structure AlertEffects where
  newState : AlertStateRow
  logs : List AlertLogRow
  dmPhases : List String
deriving DecidableEq

/-- The `getPrevState` fallback row when no `alert_state` row exists. -/
def defaultPrevState : AlertStateRow := ⟨0, none, none⟩

/-- Embedding of `processAlert` from monitoring/alertEngine.js, as a function from the
previously stored row (read by `getPrevState`) to the write/send effects.
`stateJson` is the pre-serialized `state` argument. -/
def processAlert (hash : String → String) (prev : Option AlertStateRow)
    (isActive : Bool) (signaturePayload : JsonVal) (stateJson : Option String)
    (message : String) (alertType : String) : AlertEffects :=
  let signature := makeSignature hash signaturePayload
  let prevRow := prev.getD defaultPrevState
  let prevActive := prevRow.isActive == 1
  if isActive && !prevActive then
    { newState := ⟨1, some signature, stateJson⟩
      logs := [⟨alertType, "NEW", message, some signature⟩]
      dmPhases := ["NEW"] }
  else if isActive && prevActive && !(prevRow.signature == some signature) then
    { newState := ⟨1, some signature, stateJson⟩
      logs := [⟨alertType, "UPDATED", message, some signature⟩]
      dmPhases := ["UPDATED"] }
  else if isActive && prevActive && (prevRow.signature == some signature) then
    { newState := ⟨1, some signature, stateJson⟩
      logs := []
      dmPhases := [] }
  else if !isActive && prevActive then
    { newState := ⟨0, none, stateJson⟩
      logs := [⟨alertType, "RESOLVED", message, none⟩]
      dmPhases := [] }
  else
    { newState := ⟨0, none, stateJson⟩
      logs := []
      dmPhases := [] }

/-! ## LP range classification (monitoring/lpMonitor.js) -/

/-- Model of `String.prototype.toUpperCase` (on the characters our statuses use). -/
def jsToUpper (s : String) : String := String.mk (s.data.map Char.toUpper)

/-- The whitespace class of the regex `\s` restricted to the ASCII
whitespace characters. -/
def isJsWhitespace (c : Char) : Bool :=
  c = ' ' || c = '\t' || c = '\n' || c = '\r' || c = '\x0b' || c = '\x0c'

/-- Model of `replace(/\s+/g, "_")`: each maximal run of whitespace becomes one
underscore.  The boolean argument records whether the previous character
was part of a whitespace run. -/
def replaceWsRuns : Bool → List Char → List Char
  | _, [] => []
  | prevWs, c :: cs =>
    if isJsWhitespace c then
      if prevWs then replaceWsRuns true cs
      else '_' :: replaceWsRuns true cs
    else c :: replaceWsRuns false cs

/-- Model of `(rangeStatus || "").toString().toUpperCase().replace(/\s+/g, "_")`. -/
def normalizeStatus (rangeStatus : String) : String :=
  String.mk (replaceWsRuns false (jsToUpper rangeStatus).data)

/-- The four LP tier cutoffs read from the environment at module load
(`LP_EDGE_WARN_FRAC`, `LP_EDGE_HIGH_FRAC`, `LP_OUT_WARN_FRAC`,
`LP_OUT_HIGH_FRAC`); `none` models a non-finite configured value (`NaN`). -/
structure LpCutoffs where
  edgeWarn : Option ℚ
  edgeHigh : Option ℚ
  outWarn : Option ℚ
  outHigh : Option ℚ
deriving DecidableEq

/-- Model of `Number.isFinite(cutoff) && x <= cutoff`. -/
def optLeTest (cutoff : Option ℚ) (x : ℚ) : Bool :=
  match cutoff with
  | some c => decide (x ≤ c)
  | none => false

/-- The record returned by `classifyLpRangeTier`. -/
structure LpClass where
  tier : String
  positionFrac : Option ℚ
  distanceFrac : Option ℚ
  label : String
deriving DecidableEq

/-- Embedding of `classifyLpRangeTier` from monitoring/lpMonitor.js.  `hasTicks` holds
when all three ticks are finite and the width is positive; exact rational
arithmetic makes the fractions computed under `hasTicks` automatically
finite, so the `Number.isFinite` guards of the source on them reduce to the
sign checks. -/
def classifyLpRangeTier (cfg : LpCutoffs) (rangeStatus : String)
    (tickLower tickUpper currentTick : Option ℚ) : LpClass :=
  let normStatus := normalizeStatus rangeStatus
  let fallback : LpClass :=
    if normStatus = "IN_RANGE" then
      ⟨"LOW", none, none, "in range (no detailed geometry)"⟩
    else
      ⟨"UNKNOWN", none, none, "range not computed"⟩
  match tickLower, tickUpper, currentTick with
  | some lo, some hi, some cur =>
    let width := hi - lo
    if 0 < width then
      if normStatus = "IN_RANGE" then
        let positionFrac := (cur - lo) / width
        let centerDist := min positionFrac (1 - positionFrac)
        if centerDist < 0 then
          ⟨"UNKNOWN", none, none, "invalid in-range tick geometry"⟩
        else
          let tier :=
            if optLeTest cfg.edgeHigh centerDist then ("HIGH")
            else if optLeTest cfg.edgeWarn centerDist then ("MEDIUM")
            else ("LOW")
          let label :=
            if tier = "LOW" then ("comfortably in range")
            else if tier = "MEDIUM" then ("in range but near edge")
            else ("in range and very close to edge")
          ⟨tier, some positionFrac, some centerDist, label⟩
      else if normStatus = "OUT_OF_RANGE" then
        let distanceFrac : Option ℚ :=
          if cur < lo then some ((lo - cur) / width)
          else if hi ≤ cur then some ((cur - hi) / width)
          else none
        match distanceFrac with
        | none => ⟨"HIGH", none, none, "out of range (distance unknown)"⟩
        | some d =>
          if d < 0 then ⟨"HIGH", none, none, "out of range (distance unknown)"⟩
          else
            let tier :=
              if optLeTest cfg.outWarn d then ("MEDIUM")
              else if optLeTest cfg.outHigh d then ("HIGH")
              else ("CRITICAL")
            let label :=
              if tier = "MEDIUM" then ("slightly out of range")
              else if tier = "HIGH" then ("far out of range")
              else ("deeply out of range")
            ⟨tier, none, some d, label⟩
      else fallback
    else fallback
  | _, _, _ => fallback

/-- Embedding of `LP_TIER_ORDER` and `isLpTierAtLeast` from monitoring/lpMonitor.js. -/
def LP_TIER_ORDER : List String := ["LOW", "MEDIUM", "HIGH", "CRITICAL", "UNKNOWN"]

def isLpTierAtLeast (tier minTier : String) : Bool :=
  let t := jsToUpper (if tier = "" then ("UNKNOWN") else tier)
  let m := jsToUpper (if minTier = "" then ("UNKNOWN") else minTier)
  match LP_TIER_ORDER.indexOf? t, LP_TIER_ORDER.indexOf? m with
  | some idx, some minIdx => decide (minIdx ≤ idx)
  | _, _ => false

/-- The range status derived from the pool tick in `summarizeLpPosition`
and `describeLpPosition`: `IN_RANGE` when
`tickLower <= currentTick < tickUpper`, `OUT_OF_RANGE` for a finite tick
outside the bounds, `UNKNOWN` when no finite tick is available. -/
def rangeStatusOf (tickLower tickUpper : ℚ) (currentTick : Option ℚ) : String :=
  match currentTick with
  | some t => if tickLower ≤ t ∧ t < tickUpper then ("IN_RANGE") else ("OUT_OF_RANGE")
  | none => "UNKNOWN"

/-- The risk-relevant fields of the summary object built by
`summarizeLpPosition`. -/
structure LpSummary where
  status : String
  rangeStatus : String
  lpRangeTier : String
  lpRangeLabel : String
  lpPositionFrac : Option ℚ
  lpDistanceFrac : Option ℚ
deriving DecidableEq

/-- Embedding of `summarizeLpPosition` from monitoring/lpMonitor.js, restricted to the
fields the claims are about.  `liquidity` is the on-chain liquidity
(a non-negative big integer); positions with zero liquidity return `null`
and are dropped from `getLpSummaries`. -/
def summarizeLpPosition (cfg : LpCutoffs) (liquidity : Nat)
    (tickLower tickUpper : ℚ) (currentTick : Option ℚ) : Option LpSummary :=
  if liquidity = 0 then none
  else
    let rangeStatus := rangeStatusOf tickLower tickUpper currentTick
    let lpClass := classifyLpRangeTier cfg rangeStatus
      (some tickLower) (some tickUpper) currentTick
    some ⟨"ACTIVE", rangeStatus, lpClass.tier, lpClass.label,
      lpClass.positionFrac, lpClass.distanceFrac⟩

/-- The arguments `describeLpPosition` passes to `handleLpRangeAlert`
(the fields the claims are about). -/
structure LpAlertCall where
  currentStatus : String
  isActive : Bool
  lpRangeTier : String
deriving DecidableEq

/-- Embedding of `describeLpPosition` from monitoring/lpMonitor.js, as a function to the
alert call it performs: a zero-liquidity position short-circuits to an
`INACTIVE` alert call with a null tick geometry; otherwise the range is
classified and the alert is active exactly for an out-of-range status whose
tier reaches `LP_ALERT_MIN_TIER`. -/
def describeLpPosition (cfg : LpCutoffs) (minTier : String) (liquidity : Nat)
    (tickLower tickUpper : ℚ) (currentTick : Option ℚ) : LpAlertCall :=
  if liquidity = 0 then ⟨"INACTIVE", false, "UNKNOWN"⟩
  else
    let currentStatus := rangeStatusOf tickLower tickUpper currentTick
    let lpClass := classifyLpRangeTier cfg currentStatus
      (some tickLower) (some tickUpper) currentTick
    ⟨currentStatus,
      (currentStatus == "OUT_OF_RANGE") && isLpTierAtLeast lpClass.tier minTier,
      lpClass.tier⟩

/-! ## Environment configuration (monitoring/dailyHeartbeat.js,
monitoring/lpMonitor.js, utils/discord/validateEnv.js)

`parseNumber` abstracts JavaScript `Number(...)` on a string, returning
`none` for a non-finite result; an absent variable is `none` in the
environment map, and `Number(undefined)` is `NaN`. -/

/-- Embedding of `requireNumberEnv` from monitoring/dailyHeartbeat.js: a missing or
blank variable and a non-numeric value are both fatal startup errors. -/
def requireNumberEnv (parseNumber : String → Option ℚ)
    (raw : Option String) : Except String ℚ :=
  match raw with
  | none => Except.error ("missing env var")
  | some s =>
    if s.trim = "" then Except.error ("missing env var")
    else
      match parseNumber s with
      | none => Except.error ("env var must be numeric")
      | some n => Except.ok n

/-- The module-load initialization of the four LP tier cutoffs in
monitoring/lpMonitor.js: each is a bare `Number(process.env....)` with no
presence or numeric check, so an absent variable silently yields `NaN`
(`none`).  (`validateEnv` checks only `BOT_TOKEN`, `CLIENT_ID` and
`GUILD_ID`, none of the numeric thresholds.) -/
def lpMonitorCutoffsInit (parseNumber : String → Option ℚ)
    (env : String → Option String) : LpCutoffs :=
  { edgeWarn := (env ("LP_EDGE_WARN_FRAC")).bind parseNumber
    edgeHigh := (env ("LP_EDGE_HIGH_FRAC")).bind parseNumber
    outWarn := (env ("LP_OUT_WARN_FRAC")).bind parseNumber
    outHigh := (env ("LP_OUT_HIGH_FRAC")).bind parseNumber }

/-- The module-load initialization of the staleness window in
monitoring/dailyHeartbeat.js: `SNAPSHOT_STALE_WARN_MIN` goes through
`requireNumberEnv` and so is startup-fatal when absent or non-numeric. -/
def heartbeatStaleWarnInit (parseNumber : String → Option ℚ)
    (env : String → Option String) : Except String ℚ :=
  requireNumberEnv parseNumber (env ("SNAPSHOT_STALE_WARN_MIN"))

/-! ## Cross-process file lock (utils/lock.js, PID-liveness revision) -/

/-- The constant `STALE_MS = 30 * 60 * 1000`. -/
def STALE_MS : Int := 30 * 60 * 1000

/-- The on-disk lock marker as `acquireLock` observes it: the owner pid
parsed by `parseLockPid` (`none` when the file is unreadable or holds no
positive integer pid) and the marker age `now - stat.mtimeMs`. -/
structure LockMarker where
  pid : Option Nat
  ageMs : Int
deriving DecidableEq

/-- Embedding of `acquireLock` from utils/lock.js (the revision with the PID liveness
probe), with the filesystem idealized: `marker` is the current marker for
`name` (or `none`), `alive p` is the `process.kill(p, 0)` probe, unlink
and the `wx` create succeed, and an invalid (empty) name throws. -/
def acquireLock (alive : Nat → Bool) (name : String)
    (marker : Option LockMarker) : Except String (Option String) :=
  if name = "" then
    Except.error ("acquireLock(name) requires a non-empty string name.")
  else
    let lockPath := name ++ ".lock"
    Except.ok (match marker with
      | none => some lockPath
      | some m =>
        match m.pid with
        | some p =>
          if !alive p then some lockPath
          else if m.ageMs < STALE_MS then none
          else some lockPath
        | none =>
          if m.ageMs < STALE_MS then none
          else some lockPath)

/-! ## Contract creation block binary search (the Steer discovery script) -/

/-- Model of `Boolean(code && code !== "0x")` over the string returned by
`provider.getCode(address, blockTag)`. -/
def hasCodeAtBlock (getCode : Nat → String) (b : Nat) : Bool :=
  decide (getCode b ≠ "" ∧ getCode b ≠ "0x")

/-- The `while (lo < hi)` loop of `findContractCreationBlock`, written with
explicit fuel (the loop halves `hi - lo` each iteration, so fuel
`hi - lo` always suffices; the fuel-exhausted branch is unreachable for
the fuel the wrapper supplies). -/
def creationSearchFuel (hasCode : Nat → Bool) : Nat → Nat → Nat → Nat
  | 0, lo, _ => lo
  | fuel + 1, lo, hi =>
    if lo < hi then
      let mid := (lo + hi) / 2
      if hasCode mid then creationSearchFuel hasCode fuel lo mid
      else creationSearchFuel hasCode fuel (mid + 1) hi
    else lo

/-- Embedding of `findContractCreationBlock` from the Steer discovery script: `latest`
is the chain head; returns `null` when the address has no code at the
head, else binary-searches `[0, latest]` for the first block with code. -/
def findContractCreationBlock (getCode : Nat → String) (latest : Nat) : Option Nat :=
  if hasCodeAtBlock getCode latest then
    some (creationSearchFuel (hasCodeAtBlock getCode) latest 0 latest)
  else none

/-! ## Discord message chunking (utils/discord/sendLongDM.js)

Strings are modelled as `List Char` here (`length`, `slice`, `split` are
all code-unit-wise in the source). -/

/-- Model of `String.prototype.trim` (ASCII whitespace). -/
def jsTrim (s : List Char) : List Char :=
  ((s.dropWhile isJsWhitespace).reverse.dropWhile isJsWhitespace).reverse

/-- Model of `raw.replace(/\r\n/g, "\n")`. -/
def normalizeCrlf : List Char → List Char
  | [] => []
  | '\r' :: '\n' :: cs => '\n' :: normalizeCrlf cs
  | c :: cs => c :: normalizeCrlf cs

/-- Model of `split("\n")`. -/
def splitOnNewline : List Char → List (List Char)
  | [] => [[]]
  | c :: cs =>
    if c = '\n' then [] :: splitOnNewline cs
    else
      match splitOnNewline cs with
      | [] => [[c]]
      | l :: ls => (c :: l) :: ls

/-- The hard-split loop `for (let i = 0; i < line.length; i += maxLen)
push(line.slice(i, i + maxLen))`, with explicit fuel (for `maxLen >= 1`
each step strictly shortens the line, so fuel `line.length` suffices;
the source loop does not terminate for `maxLen = 0`, which the fuel
bound makes total). -/
def hardSplitFuel (maxLen : Nat) : Nat → List Char → List (List Char)
  | _, [] => []
  | 0, _ => []
  | fuel + 1, s => s.take maxLen :: hardSplitFuel maxLen fuel (s.drop maxLen)

def hardSplit (maxLen : Nat) (s : List Char) : List (List Char) :=
  hardSplitFuel maxLen s.length s

/-- The loop body of `splitIntoDiscordMessages`: state is
(chunks so far, current buffer); the buffer is empty iff the JS `buf` is
the empty string. -/
def splitStep (maxLen : Nat) (acc : List (List Char) × List Char)
    (line : List Char) : List (List Char) × List Char :=
  let chunks := acc.1
  let buf := acc.2
  if maxLen < line.length then
    ((if buf = [] then chunks else chunks ++ [buf]) ++ hardSplit maxLen line, [])
  else
    let addLen := (if buf = [] then 0 else 1) + line.length
    if maxLen < buf.length + addLen then
      ((if buf = [] then chunks else chunks ++ [buf]), line)
    else
      (chunks, if buf = [] then line else buf ++ '\n' :: line)

/-- Embedding of `splitIntoDiscordMessages` from utils/discord/sendLongDM.js:
null input and whitespace-only input yield no chunks; otherwise the text
is split on newlines, greedily packed into chunks of at most `maxLen`
(hard-splitting any over-long single line), and a final enforcement pass
re-splits any chunk that is still longer than `maxLen`. -/
def splitIntoDiscordMessages (text : Option (List Char)) (maxLen : Nat) :
    List (List Char) :=
  match text with
  | none => []
  | some raw =>
    if jsTrim raw = [] then []
    else
      let lines := splitOnNewline (normalizeCrlf raw)
      let folded := lines.foldl (splitStep maxLen) ([], [])
      let chunks := if folded.2 = [] then folded.1 else folded.1 ++ [folded.2]
      chunks.flatMap fun c =>
        if c.length ≤ maxLen then [c] else hardSplit maxLen c

/-! ## Supporting lemmas -/

/-- Unfolding of `classifyLpRangeTier` in the usable-geometry `IN_RANGE`
branch. -/
theorem classify_in_range_eq (cfg : LpCutoffs) (lo hi cur : ℚ) (hw : 0 < hi - lo) :
    classifyLpRangeTier cfg ("IN_RANGE") (some lo) (some hi) (some cur) =
      (let positionFrac := (cur - lo) / (hi - lo)
       let centerDist := min positionFrac (1 - positionFrac)
       if centerDist < 0 then
         ⟨"UNKNOWN", none, none, "invalid in-range tick geometry"⟩
       else
         let tier :=
           if optLeTest cfg.edgeHigh centerDist then ("HIGH")
           else if optLeTest cfg.edgeWarn centerDist then ("MEDIUM")
           else ("LOW")
         let label :=
           if tier = "LOW" then ("comfortably in range")
           else if tier = "MEDIUM" then ("in range but near edge")
           else ("in range and very close to edge")
         ⟨tier, some positionFrac, some centerDist, label⟩) := by
  have hs : normalizeStatus ("IN_RANGE") = "IN_RANGE" := by decide
  simp only [classifyLpRangeTier, hs, if_pos hw, reduceIte]

/-- Unfolding of `classifyLpRangeTier` in the usable-geometry
`OUT_OF_RANGE` branch. -/
theorem classify_out_range_eq (cfg : LpCutoffs) (lo hi cur : ℚ) (hw : 0 < hi - lo) :
    classifyLpRangeTier cfg ("OUT_OF_RANGE") (some lo) (some hi) (some cur) =
      (let distanceFrac : Option ℚ :=
         if cur < lo then some ((lo - cur) / (hi - lo))
         else if hi ≤ cur then some ((cur - hi) / (hi - lo))
         else none
       match distanceFrac with
       | none => ⟨"HIGH", none, none, "out of range (distance unknown)"⟩
       | some d =>
         if d < 0 then ⟨"HIGH", none, none, "out of range (distance unknown)"⟩
         else
           let tier :=
             if optLeTest cfg.outWarn d then ("MEDIUM")
             else if optLeTest cfg.outHigh d then ("HIGH")
             else ("CRITICAL")
           let label :=
             if tier = "MEDIUM" then ("slightly out of range")
             else if tier = "HIGH" then ("far out of range")
             else ("deeply out of range")
           ⟨tier, none, some d, label⟩) := by
  have hs : normalizeStatus ("OUT_OF_RANGE") = "OUT_OF_RANGE" := by decide
  simp only [classifyLpRangeTier, hs, if_pos hw]
  rw [if_neg (by decide : ("OUT_OF_RANGE" : String) ≠ "IN_RANGE")]
  simp only [if_true]

/-! ## Claim theorems -/

/-- C1: for an identity whose stored alert state is active, running
`processAlert` with `isActive = false` emits exactly one RESOLVED
`alert_log` row, persists the inactive state (with a null signature), and
invokes no DM send. -/
theorem resolved_transition_no_notification (hash : String → String)
    (prev : AlertStateRow) (payload : JsonVal) (stateJson : Option String)
    (message alertType : String) (hActive : prev.isActive = 1) :
    processAlert hash (some prev) false payload stateJson message alertType =
      ⟨⟨0, none, stateJson⟩, [⟨alertType, "RESOLVED", message, none⟩], []⟩ := by
  simp [processAlert, hActive]

theorem resolved_transition_no_notification_witness :
    processAlert (fun _ => "h") (some ⟨1, some ("s"), none⟩) false .null none
      ("m") ("LP_RANGE") =
      ⟨⟨0, none, none⟩, [⟨"LP_RANGE", "RESOLVED", "m", none⟩], []⟩ :=
  resolved_transition_no_notification (fun _ => "h") ⟨1, some ("s"), none⟩
    .null none ("m") ("LP_RANGE") rfl

/-- C6: after any single `processAlert` call, the persisted alert state
row satisfies the invariant `is_active = 0 → signature = null`: every
branch that writes an inactive state writes a null signature. -/
theorem inactive_state_null_signature (hash : String → String)
    (prev : Option AlertStateRow) (isActive : Bool) (payload : JsonVal)
    (stateJson : Option String) (message alertType : String)
    (h : (processAlert hash prev isActive payload stateJson message
      alertType).newState.isActive = 0) :
    (processAlert hash prev isActive payload stateJson message
      alertType).newState.signature = none := by
  cases isActive with
  | false =>
    cases hA : ((prev.getD defaultPrevState).isActive == 1) with
    | false => simp [processAlert, hA]
    | true => simp [processAlert, hA]
  | true =>
    cases hA : ((prev.getD defaultPrevState).isActive == 1) with
    | false => simp [processAlert, hA] at h
    | true =>
      cases hS : ((prev.getD defaultPrevState).signature ==
          some (makeSignature hash payload)) with
      | false => simp [processAlert, hA, hS] at h
      | true => simp [processAlert, hA, hS] at h

theorem inactive_state_null_signature_witness :
    (processAlert (fun _ => "h") none false .null none ("m")
      ("GENERIC")).newState.isActive = 0 ∧
    (processAlert (fun _ => "h") none false .null none ("m")
      ("GENERIC")).newState.signature = none :=
  ⟨by decide,
    inactive_state_null_signature (fun _ => "h") none false .null none
      ("m") ("GENERIC") (by decide)⟩

/-- C2 counterexample: with usable tick geometry, status `OUT_OF_RANGE`
and a current tick inside the bounds, the computed distance is degenerate
(`null`, hence non-finite), yet the returned tier is the concrete tier
HIGH rather than UNKNOWN. -/
theorem degenerate_distance_yields_high :
    (classifyLpRangeTier ⟨none, none, none, none⟩ ("OUT_OF_RANGE")
        (some 0) (some 100) (some 50)).distanceFrac = none ∧
    (classifyLpRangeTier ⟨none, none, none, none⟩ ("OUT_OF_RANGE")
        (some 0) (some 100) (some 50)).tier = "HIGH" ∧
    ("HIGH" : String) ≠ "UNKNOWN" := by
  rw [classify_out_range_eq _ _ _ _ (by norm_num)]
  norm_num
  decide

/-- C2 amended: in the `IN_RANGE` branch a negative computed center
distance yields UNKNOWN with an explanatory label; but in the
`OUT_OF_RANGE` branch a degenerate (null/non-finite) computed distance
yields the concrete tier HIGH with the label "out of range (distance
unknown)". -/
theorem degenerate_geometry_classification (cfg : LpCutoffs) (lo hi cur : ℚ)
    (hw : 0 < hi - lo) :
    (min ((cur - lo) / (hi - lo)) (1 - (cur - lo) / (hi - lo)) < 0 →
      classifyLpRangeTier cfg ("IN_RANGE") (some lo) (some hi) (some cur) =
        ⟨"UNKNOWN", none, none, "invalid in-range tick geometry"⟩) ∧
    (lo ≤ cur → cur < hi →
      classifyLpRangeTier cfg ("OUT_OF_RANGE") (some lo) (some hi) (some cur) =
        ⟨"HIGH", none, none, "out of range (distance unknown)"⟩) := by
  constructor
  · intro hneg
    rw [classify_in_range_eq cfg lo hi cur hw]
    simp only [if_pos hneg]
  · intro h1 h2
    rw [classify_out_range_eq cfg lo hi cur hw]
    simp only [if_neg (not_lt.mpr h1), if_neg (not_le.mpr h2)]

theorem degenerate_geometry_classification_witness :
    classifyLpRangeTier ⟨none, none, none, none⟩ ("IN_RANGE")
        (some 0) (some 100) (some 200) =
      ⟨"UNKNOWN", none, none, "invalid in-range tick geometry"⟩ ∧
    classifyLpRangeTier ⟨none, none, none, none⟩ ("OUT_OF_RANGE")
        (some 0) (some 100) (some 50) =
      ⟨"HIGH", none, none, "out of range (distance unknown)"⟩ :=
  ⟨(degenerate_geometry_classification ⟨none, none, none, none⟩ 0 100 200
      (by norm_num)).1 (by norm_num [min_def]),
   (degenerate_geometry_classification ⟨none, none, none, none⟩ 0 100 50
      (by norm_num)).2 (by norm_num) (by norm_num)⟩

/-- C3: the staleness window `SNAPSHOT_STALE_WARN_MIN` is startup-fatal
when absent (via `requireNumberEnv`), but the four LP tier cutoffs are
read with a bare `Number(...)`: with every variable absent, module
initialization returns all-NaN cutoffs and raises no error, contradicting
the claim that absence of any of the five thresholds is fatal. -/
theorem lp_cutoffs_not_validated_at_startup :
    lpMonitorCutoffsInit (fun _ => none) (fun _ => none) =
      ⟨none, none, none, none⟩ ∧
    heartbeatStaleWarnInit (fun _ => none) (fun _ => none) =
      Except.error ("missing env var") :=
  ⟨rfl, rfl⟩

/-- C5 counterexample: a monitored position with zero on-chain liquidity
is dropped by `summarizeLpPosition` (it returns `null`, and
`getLpSummaries` skips null results) instead of being reported with
status INACTIVE. -/
theorem zero_liquidity_summary_omitted :
    summarizeLpPosition ⟨none, none, none, none⟩ 0 100 200 (some 150) = none := by
  simp [summarizeLpPosition]

/-- C5 amended: for a zero-liquidity position, `describeLpPosition`
reports status INACTIVE regardless of tick values (an inactive alert call
with tier UNKNOWN), while `summarizeLpPosition` returns `null`, omitting
the position from summaries. -/
theorem zero_liquidity_handling (cfg : LpCutoffs) (minTier : String)
    (liquidity : Nat) (lo hi : ℚ) (tick : Option ℚ) (h : liquidity = 0) :
    describeLpPosition cfg minTier liquidity lo hi tick =
      ⟨"INACTIVE", false, "UNKNOWN"⟩ ∧
    summarizeLpPosition cfg liquidity lo hi tick = none := by
  subst h
  exact ⟨rfl, rfl⟩

theorem zero_liquidity_handling_witness :
    describeLpPosition ⟨none, none, none, none⟩ ("UNKNOWN") 0 100 200
      (some 150) = ⟨"INACTIVE", false, "UNKNOWN"⟩ ∧
    summarizeLpPosition ⟨none, none, none, none⟩ 0 100 200 (some 150) = none :=
  zero_liquidity_handling ⟨none, none, none, none⟩ ("UNKNOWN") 0 100 200
    (some 150) rfl

/-- C4: with a valid lock name, `acquireLock` returns the lock path exactly
when no marker exists, or the marker records an owner pid that the
liveness probe reports dead, or the marker has reached the absolute
staleness age; and the dead-owner check has priority over the age check,
so a dead-owner marker is reclaimed even when younger than the staleness
age. -/
theorem acquire_lock_reclaim_rules (alive : Nat → Bool) (name : String)
    (marker : Option LockMarker) (hname : name ≠ "") :
    (acquireLock alive name marker = Except.ok (some (name ++ ".lock")) ↔
      marker = none ∨
      (∃ m p, marker = some m ∧ m.pid = some p ∧ alive p = false) ∨
      (∃ m, marker = some m ∧ STALE_MS ≤ m.ageMs)) ∧
    (∀ m p, marker = some m → m.pid = some p → alive p = false →
      m.ageMs < STALE_MS →
      acquireLock alive name marker = Except.ok (some (name ++ ".lock"))) := by
  constructor
  · simp only [acquireLock, if_neg hname]
    cases marker with
    | none => simp
    | some m =>
      cases hp : m.pid with
      | none =>
        by_cases hage : m.ageMs < STALE_MS
        · simp [hp, hage, not_le.mpr hage]
        · simp [hp, hage, not_lt.mp hage]
      | some p =>
        cases ha : alive p with
        | false => simp [hp, ha]
        | true =>
          by_cases hage : m.ageMs < STALE_MS
          · simp [hp, ha, hage, not_le.mpr hage]
          · simp [hp, ha, hage, not_lt.mp hage]
  · intro m p hm hp ha hage
    subst hm
    simp only [acquireLock, if_neg hname, hp, ha]
    rfl

theorem acquire_lock_reclaim_rules_witness :
    (("snapshot-refresh" : String) ≠ "") ∧
    acquireLock (fun _ => false) ("snapshot-refresh")
        (some ⟨some 42, 1000⟩) =
      Except.ok (some ("snapshot-refresh.lock")) :=
  ⟨by decide,
    (acquire_lock_reclaim_rules (fun _ => false) ("snapshot-refresh")
        (some ⟨some 42, 1000⟩) (by decide)).2
      ⟨some 42, 1000⟩ 42 rfl rfl rfl (by decide)⟩

/-- C8: with finite in-range cutoffs strictly below `0.5` and a finite
out-warn cutoff of at least `0.05`, ticks `100/200` with current tick
`150` derive `IN_RANGE`, position fraction `1/2`, center distance `1/2`
and tier LOW; current tick `95` derives `OUT_OF_RANGE`, distance fraction
`1/20 = 0.05` and tier MEDIUM. -/
theorem example_range_classification (cfg : LpCutoffs) (ew eh ow : ℚ)
    (hew : cfg.edgeWarn = some ew) (hewlt : ew < 1 / 2)
    (heh : cfg.edgeHigh = some eh) (hehlt : eh < 1 / 2)
    (how : cfg.outWarn = some ow) (howge : 1 / 20 ≤ ow) :
    rangeStatusOf 100 200 (some 150) = "IN_RANGE" ∧
    classifyLpRangeTier cfg ("IN_RANGE") (some 100) (some 200) (some 150) =
      ⟨"LOW", some (1 / 2), some (1 / 2), "comfortably in range"⟩ ∧
    rangeStatusOf 100 200 (some 95) = "OUT_OF_RANGE" ∧
    classifyLpRangeTier cfg ("OUT_OF_RANGE") (some 100) (some 200) (some 95) =
      ⟨"MEDIUM", none, some (1 / 20), "slightly out of range"⟩ := by
  refine ⟨by norm_num [rangeStatusOf], ?_, by norm_num [rangeStatusOf], ?_⟩
  · rw [classify_in_range_eq cfg 100 200 150 (by norm_num)]
    have hfrac : ((150 : ℚ) - 100) / (200 - 100) = 1 / 2 := by norm_num
    have hmin : min ((1 : ℚ) / 2) (1 - 1 / 2) = 1 / 2 := by norm_num
    simp only [hfrac, hmin]
    rw [if_neg (by norm_num : ¬((1 : ℚ) / 2 < 0))]
    have th : optLeTest cfg.edgeHigh (1 / 2) = false := by
      rw [heh]; simp only [optLeTest]
      exact decide_eq_false (not_le.mpr hehlt)
    have tw : optLeTest cfg.edgeWarn (1 / 2) = false := by
      rw [hew]; simp only [optLeTest]
      exact decide_eq_false (not_le.mpr hewlt)
    simp only [th, tw, Bool.false_eq_true, if_false, reduceIte]
  · rw [classify_out_range_eq cfg 100 200 95 (by norm_num)]
    rw [if_pos (by norm_num : (95 : ℚ) < 100)]
    have hfrac : ((100 : ℚ) - 95) / (200 - 100) = 1 / 20 := by norm_num
    simp only [hfrac]
    rw [if_neg (by norm_num : ¬((1 : ℚ) / 20 < 0))]
    have tw : optLeTest cfg.outWarn (1 / 20) = true := by
      rw [how]; simp only [optLeTest]
      exact decide_eq_true howge
    simp only [tw, if_true, reduceIte]

theorem example_range_classification_witness :
    rangeStatusOf 100 200 (some 150) = "IN_RANGE" ∧
    classifyLpRangeTier ⟨some (1 / 10), some (1 / 50), some (1 / 10), some (1 / 4)⟩
        ("IN_RANGE") (some 100) (some 200) (some 150) =
      ⟨"LOW", some (1 / 2), some (1 / 2), "comfortably in range"⟩ ∧
    rangeStatusOf 100 200 (some 95) = "OUT_OF_RANGE" ∧
    classifyLpRangeTier ⟨some (1 / 10), some (1 / 50), some (1 / 10), some (1 / 4)⟩
        ("OUT_OF_RANGE") (some 100) (some 200) (some 95) =
      ⟨"MEDIUM", none, some (1 / 20), "slightly out of range"⟩ :=
  example_range_classification
    ⟨some (1 / 10), some (1 / 50), some (1 / 10), some (1 / 4)⟩
    (1 / 10) (1 / 50) (1 / 10) rfl (by norm_num) rfl (by norm_num) rfl
    (by norm_num)

/-- The binary-search loop returns the least block satisfying the
monotone code predicate, given enough fuel. -/
theorem creationSearchFuel_finds (hasCode : Nat → Bool) (B : Nat)
    (hmono : ∀ b, hasCode b = true ↔ B ≤ b) :
    ∀ fuel lo hi, lo ≤ B → B ≤ hi → hi - lo ≤ fuel →
      creationSearchFuel hasCode fuel lo hi = B := by
  intro fuel
  induction fuel with
  | zero =>
    intro lo hi h1 h2 h3
    simp only [creationSearchFuel]
    omega
  | succ n ih =>
    intro lo hi h1 h2 h3
    simp only [creationSearchFuel]
    by_cases hlt : lo < hi
    · rw [if_pos hlt]
      by_cases hc : hasCode ((lo + hi) / 2) = true
      · rw [if_pos hc]
        exact ih lo ((lo + hi) / 2) h1 ((hmono _).mp hc) (by omega)
      · rw [if_neg hc]
        have hmid : (lo + hi) / 2 < B := by
          by_contra hle
          exact hc ((hmono _).mpr (by omega))
        exact ih ((lo + hi) / 2 + 1) hi (by omega) h2 (by omega)
    · rw [if_neg hlt]
      omega

/-- C9: for a deployment block `B` at or below the chain head, a provider
that reports no code strictly below `B` and code at and above `B` makes
`findContractCreationBlock` terminate with exactly `B`. -/
theorem creation_search_exact (getCode : Nat → String) (latest B : Nat)
    (hB : B ≤ latest)
    (hcode : ∀ b, hasCodeAtBlock getCode b = true ↔ B ≤ b) :
    findContractCreationBlock getCode latest = some B := by
  have hl : hasCodeAtBlock getCode latest = true := (hcode latest).mpr hB
  unfold findContractCreationBlock
  rw [if_pos hl]
  exact congrArg some
    (creationSearchFuel_finds (hasCodeAtBlock getCode) B hcode latest 0 latest
      (Nat.zero_le B) hB (by omega))

theorem creation_search_exact_witness :
    findContractCreationBlock
      (fun b => if 5 ≤ b then ("0x6001") else ("0x")) 9 = some 5 :=
  creation_search_exact (fun b => if 5 ≤ b then ("0x6001") else ("0x")) 9 5
    (by decide)
    (fun b => by
      constructor
      · intro htrue
        by_contra hlt
        simp only [hasCodeAtBlock, if_neg hlt] at htrue
        exact absurd htrue (by decide)
      · intro hge
        simp only [hasCodeAtBlock, if_pos hge]
        decide)

/-- Totality of the key comparison. -/
theorem charListLe_total : ∀ xs ys : List Char,
    charListLe xs ys = true ∨ charListLe ys xs = true := by
  intro xs
  induction xs with
  | nil => intro ys; left; rfl
  | cons x xs ih =>
    intro ys
    cases ys with
    | nil => right; rfl
    | cons y ys =>
      rcases lt_trichotomy x y with h | h | h
      · left; simp [charListLe, h]
      · subst h
        rcases ih ys with h2 | h2
        · left; simp [charListLe, lt_irrefl, h2]
        · right; simp [charListLe, lt_irrefl, h2]
      · right; simp [charListLe, h]

/-- Transitivity of the key comparison. -/
theorem charListLe_trans : ∀ xs ys zs : List Char,
    charListLe xs ys = true → charListLe ys zs = true →
    charListLe xs zs = true := by
  intro xs
  induction xs with
  | nil => intro ys zs h1 h2; rfl
  | cons x xs ih =>
    intro ys zs h1 h2
    cases ys with
    | nil => exact absurd h1 (by simp [charListLe])
    | cons y ys =>
      cases zs with
      | nil => exact absurd h2 (by simp [charListLe])
      | cons z zs =>
        simp only [charListLe] at h1 h2 ⊢
        rcases lt_trichotomy x y with hxy | hxy | hxy
        · rcases lt_trichotomy y z with hyz | hyz | hyz
          · simp [lt_trans hxy hyz]
          · subst hyz; simp [hxy]
          · rw [if_neg (lt_asymm hyz), if_pos hyz] at h2
            exact absurd h2 (by simp)
        · subst hxy
          rw [if_neg (lt_irrefl x), if_neg (lt_irrefl x)] at h1
          rcases lt_trichotomy x z with hxz | hxz | hxz
          · simp [hxz]
          · subst hxz
            rw [if_neg (lt_irrefl x), if_neg (lt_irrefl x)] at h2
            rw [if_neg (lt_irrefl x), if_neg (lt_irrefl x)]
            exact ih ys zs h1 h2
          · rw [if_neg (lt_asymm hxz), if_pos hxz] at h2
            exact absurd h2 (by simp)
        · rw [if_neg (lt_asymm hxy), if_pos hxy] at h1
          exact absurd h1 (by simp)

/-- Antisymmetry of the key comparison. -/
theorem charListLe_antisymm : ∀ xs ys : List Char,
    charListLe xs ys = true → charListLe ys xs = true → xs = ys := by
  intro xs
  induction xs with
  | nil =>
    intro ys h1 h2
    cases ys with
    | nil => rfl
    | cons y ys => exact absurd h2 (by simp [charListLe])
  | cons x xs ih =>
    intro ys h1 h2
    cases ys with
    | nil => exact absurd h1 (by simp [charListLe])
    | cons y ys =>
      rcases lt_trichotomy x y with hxy | hxy | hxy
      · simp only [charListLe] at h2
        rw [if_neg (lt_asymm hxy), if_pos hxy] at h2
        exact absurd h2 (by simp)
      · subst hxy
        simp only [charListLe] at h1 h2
        rw [if_neg (lt_irrefl x), if_neg (lt_irrefl x)] at h1
        rw [if_neg (lt_irrefl x), if_neg (lt_irrefl x)] at h2
        rw [ih ys h1 h2]
      · simp only [charListLe] at h1
        rw [if_neg (lt_asymm hxy), if_pos hxy] at h1
        exact absurd h1 (by simp)

instance : IsTotal String jsKeyLe :=
  ⟨fun a b => charListLe_total a.data b.data⟩

instance : IsTrans String jsKeyLe :=
  ⟨fun a b c => charListLe_trans a.data b.data c.data⟩

instance : IsAntisymm String jsKeyLe := by
  refine ⟨fun a b h1 h2 => ?_⟩
  cases a with
  | mk da =>
    cases b with
    | mk db => exact congrArg String.mk (charListLe_antisymm da db h1 h2)

/-- Sorting is invariant under permutation of the input keys. -/
theorem sortKeys_eq_of_perm {ks₁ ks₂ : List String} (h : ks₁.Perm ks₂) :
    sortKeys ks₁ = sortKeys ks₂ :=
  List.eq_of_perm_of_sorted
    (((List.perm_insertionSort jsKeyLe ks₁).trans h).trans
      (List.perm_insertionSort jsKeyLe ks₂).symm)
    (List.sorted_insertionSort jsKeyLe ks₁)
    (List.sorted_insertionSort jsKeyLe ks₂)

/-- Association-list lookup is invariant under permutation when the keys
are distinct. -/
theorem lookup_eq_of_perm {α β : Type} [BEq α] [LawfulBEq α] :
    ∀ {l₁ l₂ : List (α × β)}, l₁.Perm l₂ → (l₁.map Prod.fst).Nodup →
      ∀ k, List.lookup k l₁ = List.lookup k l₂ := by
  intro l₁ l₂ hperm
  induction hperm with
  | nil => intro _ k; rfl
  | cons x h ih =>
    intro hnodup k
    obtain ⟨xk, xv⟩ := x
    simp only [List.map_cons, List.nodup_cons] at hnodup
    simp only [List.lookup]
    cases k == xk with
    | true => rfl
    | false => exact ih hnodup.2 k
  | swap x y l =>
    intro hnodup k
    obtain ⟨xk, xv⟩ := x
    obtain ⟨yk, yv⟩ := y
    simp only [List.map_cons, List.nodup_cons, List.mem_cons] at hnodup
    have hne : yk ≠ xk := fun hcontra => hnodup.1 (Or.inl hcontra)
    simp only [List.lookup]
    cases hky : k == yk with
    | true =>
      have : k = yk := eq_of_beq hky
      subst this
      rw [show (k == xk) = false from beq_eq_false_iff_ne.mpr hne]
    | false => rfl
  | trans h₁ h₂ ih₁ ih₂ =>
    intro hnodup k
    have hnodup₂ := (h₁.map Prod.fst).nodup hnodup
    exact (ih₁ hnodup k).trans (ih₂ hnodup₂ k)

/-- The function `stableStringify` of an object depends only on the key-value set of
its top-level fields (for distinct keys), not on their order. -/
theorem stableStringify_obj_perm (fs₁ fs₂ : List (String × JsonVal))
    (hperm : fs₁.Perm fs₂) (hnodup : (fs₁.map Prod.fst).Nodup) :
    stableStringify (.obj fs₁) = stableStringify (.obj fs₂) := by
  have hkeys : sortKeys (fs₁.map Prod.fst) = sortKeys (fs₂.map Prod.fst) :=
    sortKeys_eq_of_perm (hperm.map Prod.fst)
  have hlook : ∀ k, fieldLookup fs₁ k = fieldLookup fs₂ k := by
    intro k
    simp only [fieldLookup]
    rw [lookup_eq_of_perm hperm hnodup k]
  have hfun : (fun k => (k, fieldLookup fs₁ k)) =
      (fun k => (k, fieldLookup fs₂ k)) :=
    funext fun k => by rw [hlook k]
  simp only [stableStringify]
  rw [hkeys, hfun]

/-- C7 amended: two signature payload objects whose top-level field lists
are permutations of each other with distinct keys (in particular the flat
payloads the alert handlers build) serialize identically under
`stableStringify` and therefore hash identically under `makeSignature`;
order differences inside nested object values are, however, not
canonicalized (see the counterexample). -/
theorem stable_signature_order_independent (hash : String → String)
    (fs₁ fs₂ : List (String × JsonVal)) (hperm : fs₁.Perm fs₂)
    (hnodup : (fs₁.map Prod.fst).Nodup) :
    stableStringify (.obj fs₁) = stableStringify (.obj fs₂) ∧
    makeSignature hash (.obj fs₁) = makeSignature hash (.obj fs₂) := by
  have h := stableStringify_obj_perm fs₁ fs₂ hperm hnodup
  exact ⟨h, congrArg hash h⟩

theorem stable_signature_order_independent_witness :
    stableStringify (.obj [("b", .num 2), ("a", .num 1)]) =
      stableStringify (.obj [("a", .num 1), ("b", .num 2)]) ∧
    makeSignature (fun s => s) (.obj [("b", .num 2), ("a", .num 1)]) =
      makeSignature (fun s => s) (.obj [("a", .num 1), ("b", .num 2)]) :=
  stable_signature_order_independent (fun s => s)
    [("b", .num 2), ("a", .num 1)] [("a", .num 1), ("b", .num 2)]
    (List.Perm.swap ("a", JsonVal.num 1) ("b", JsonVal.num 2) [])
    (by decide)

/-- C7 counterexample: two payloads that are equal as key-value structures
including nested objects (witnessed by `JsonEquiv`) but differ in the
insertion order of a NESTED object produce different serializations,
because `stableStringify` sorts only the top-level keys. -/
theorem nested_payload_serialization_differs :
    JsonEquiv (.obj [("a", .obj [("x", .num 1), ("y", .num 2)])])
      (.obj [("a", .obj [("y", .num 2), ("x", .num 1)])]) ∧
    stableStringify (.obj [("a", .obj [("x", .num 1), ("y", .num 2)])]) ≠
      stableStringify (.obj [("a", .obj [("y", .num 2), ("x", .num 1)])]) := by
  constructor
  · exact .obj (List.Perm.refl _)
      (.cons ("a")
        (.obj (List.Perm.swap ("y", JsonVal.num 2) ("x", JsonVal.num 1) [])
          (.cons ("y") (.num 2) (.cons ("x") (.num 1) .nil)))
        .nil)
  · decide

/-- Every chunk produced by the hard-split loop has length at most
`maxLen`. -/
theorem hardSplitFuel_chunk_le (maxLen : Nat) :
    ∀ fuel s, ∀ c ∈ hardSplitFuel maxLen fuel s, c.length ≤ maxLen := by
  intro fuel
  induction fuel with
  | zero =>
    intro s c hc
    cases s with
    | nil => simp [hardSplitFuel] at hc
    | cons a as => simp [hardSplitFuel] at hc
  | succ n ih =>
    intro s c hc
    cases s with
    | nil => simp [hardSplitFuel] at hc
    | cons a as =>
      simp only [hardSplitFuel, List.mem_cons] at hc
      rcases hc with h | h
      · subst h
        exact List.length_take_le maxLen (a :: as)
      · exact ih _ c h

/-- C10: for `maxLen >= 1` (the source loop diverges for `maxLen = 0`),
every chunk returned by `splitIntoDiscordMessages` has length at most
`maxLen`, a null input yields the empty list, and a whitespace-only input
yields the empty list. -/
theorem split_messages_bounded (text : Option (List Char)) (maxLen : Nat)
    (_hm : 1 ≤ maxLen) :
    (∀ c ∈ splitIntoDiscordMessages text maxLen, c.length ≤ maxLen) ∧
    splitIntoDiscordMessages none maxLen = [] ∧
    (∀ t, text = some t → jsTrim t = [] →
      splitIntoDiscordMessages text maxLen = []) := by
  refine ⟨?_, rfl, ?_⟩
  · intro c hc
    cases text with
    | none => simp [splitIntoDiscordMessages] at hc
    | some raw =>
      simp only [splitIntoDiscordMessages] at hc
      by_cases ht : jsTrim raw = []
      · rw [if_pos ht] at hc
        simp at hc
      · rw [if_neg ht] at hc
        rcases List.mem_flatMap.mp hc with ⟨b, _, hcb⟩
        by_cases hbl : b.length ≤ maxLen
        · rw [if_pos hbl] at hcb
          simp only [List.mem_singleton] at hcb
          subst hcb
          exact hbl
        · rw [if_neg hbl] at hcb
          exact hardSplitFuel_chunk_le maxLen _ _ c hcb
  · intro t ht htrim
    subst ht
    simp [splitIntoDiscordMessages, htrim]

theorem split_messages_bounded_witness :
    (∀ c ∈ splitIntoDiscordMessages (some (("ab\ncdef").data)) 3,
      c.length ≤ 3) ∧
    splitIntoDiscordMessages none 3 = [] ∧
    (∀ t, some (("ab\ncdef").data) = some t → jsTrim t = [] →
      splitIntoDiscordMessages (some (("ab\ncdef").data)) 3 = []) :=
  split_messages_bounded (some (("ab\ncdef").data)) 3 (by decide)

end LiquiditySentinel
